import Mathlib

/-!
Verification of the `vecto` 2D vector library.

The library provides `Vector2<T>`, a plain two-component aggregate, with
componentwise arithmetic operators (generated uniformly by the `op!` and
`assign!` macros over the five operations add/sub/mul/div/rem, in four
overload shapes each), floating-point geometry methods guarded against
division by zero, fallible slice conversion, and an approximate-equality
capability.

Modelling choices:
* The floating-point component type `f32` is embedded as `ℚ` (exact
  arithmetic); the square-root capability of the `FloatAlone` bound is an
  explicit function parameter `sq : ℚ → ℚ`, so theorems about geometry
  methods state their hypotheses on `sq` where they need them.
* The `op!`/`assign!` macros are generic in the operation, so their
  embedding keeps the scalar operation as a function parameter
  `f : α → α → α`; the by-reference overloads are transcribed separately
  from their own `impl` blocks.
* For the NaN behaviour of `kinda_eq`, `f32` is embedded as `Option ℚ`
  with `none` playing NaN, and the IEEE comparison/propagation rules the
  code relies on are spelled out (`NaN == x` is false, `NaN < x` is false,
  arithmetic on NaN gives NaN).
-/

namespace Vecto

/-- Vector2: a value type with two named fields of the same component type
(src/lib.rs, `pub struct Vector2<T> { pub x: T, pub y: T }`). -/
structure Vector2 (α : Type) where
  x : α
  y : α
  deriving DecidableEq, Repr

namespace Vector2

/-- Construct a new vector (src/lib.rs `Vector2::new`). -/
def new (x y : α) : Vector2 α := ⟨x, y⟩

/-- Construct a vector with both components set to the given value
(src/lib.rs `Vector2::splat`). -/
def splat (v : α) : Vector2 α := ⟨v, v⟩

/-- Zero vector constant `(0, 0)` (src/lib.rs `Vec2::ZERO`). -/
def ZERO : Vector2 ℚ := new 0 0

/-- Right unit vector `(1, 0)` (src/lib.rs `Vec2::RIGHT`). -/
def RIGHT : Vector2 ℚ := new 1 0

/-- Left unit vector `(-1, 0)` (src/lib.rs `Vec2::LEFT`). -/
def LEFT : Vector2 ℚ := new (-1) 0

/-- Up unit vector `(0, -1)`, Y-down convention (src/lib.rs `Vec2::UP`). -/
def UP : Vector2 ℚ := new 0 (-1)

/-- Down unit vector `(0, 1)`, Y-down convention (src/lib.rs `Vec2::DOWN`). -/
def DOWN : Vector2 ℚ := new 0 1

end Vector2

/-! ### The `op!` macro: binary operators, four overload shapes
(src/ops.rs). Each shape is transcribed from its own `impl` block; the
scalar operation `f` stands for the macro parameter `$name`, instantiated
by the library at add, div, mul, rem, sub. -/

/-- Shape `Vector2<T> ⊕ Vector2<T>` (by-value rhs):
`Self::new(self.x.op(rhs.x), self.y.op(rhs.y))`. -/
def opVV (f : α → α → α) (a rhs : Vector2 α) : Vector2 α :=
  Vector2.new (f a.x rhs.x) (f a.y rhs.y)

/-- Shape `Vector2<T> ⊕ &Vector2<T>` (by-reference rhs, `T: Copy`):
`Self::new(self.x.op(rhs.x), self.y.op(rhs.y))`. -/
def opVVRef (f : α → α → α) (a rhs : Vector2 α) : Vector2 α :=
  Vector2.new (f a.x rhs.x) (f a.y rhs.y)

/-- Shape `Vector2<T> ⊕ T` (scalar broadcast, by-value rhs):
`Self::new(self.x.op(rhs), self.y.op(rhs))`. -/
def opVS (f : α → α → α) (a : Vector2 α) (rhs : α) : Vector2 α :=
  Vector2.new (f a.x rhs) (f a.y rhs)

/-- Shape `Vector2<T> ⊕ &T` (scalar broadcast, by-reference rhs):
`Self::new(self.x.op(*rhs), self.y.op(*rhs))`. -/
def opVSRef (f : α → α → α) (a : Vector2 α) (rhs : α) : Vector2 α :=
  Vector2.new (f a.x rhs) (f a.y rhs)

/-! ### The `assign!` macro: in-place operators, four overload shapes
(src/ops.rs). The receiver is mutated field by field
(`self.x.op_assign(rhs.x); self.y.op_assign(rhs.y);`), modelled by
explicit state passing: each step rebuilds the record with one field
updated. -/

/-- Shape `Vector2<T> ⊕= Vector2<T>` (by-value rhs). -/
def assignVV (f : α → α → α) (a rhs : Vector2 α) : Vector2 α :=
  let a1 := { a with x := f a.x rhs.x }
  { a1 with y := f a1.y rhs.y }

/-- Shape `Vector2<T> ⊕= &Vector2<T>` (by-reference rhs, `T: Copy`). -/
def assignVVRef (f : α → α → α) (a rhs : Vector2 α) : Vector2 α :=
  let a1 := { a with x := f a.x rhs.x }
  { a1 with y := f a1.y rhs.y }

/-- Shape `Vector2<T> ⊕= T` (scalar broadcast, by-value rhs). -/
def assignVS (f : α → α → α) (a : Vector2 α) (rhs : α) : Vector2 α :=
  let a1 := { a with x := f a.x rhs }
  { a1 with y := f a1.y rhs }

/-- Shape `Vector2<T> ⊕= &T` (scalar broadcast, by-reference rhs,
dereferencing `*rhs`). -/
def assignVSRef (f : α → α → α) (a : Vector2 α) (rhs : α) : Vector2 α :=
  let a1 := { a with x := f a.x rhs }
  { a1 with y := f a1.y rhs }

/-- Unary negation `Neg for Vector2<T>`: `Self::new(-self.x, -self.y)`
(src/ops.rs). -/
def negV [Neg α] (a : Vector2 α) : Vector2 α :=
  Vector2.new (-a.x) (-a.y)

/-! ### Concrete operator instances over the rational model of `f32`,
as the library uses them inside the geometry methods. -/

/-- Vector divided by scalar, the `Div<T>` instance at the float type
(used by `normalized` and `limit_length` as `self / l`). -/
def divVS (a : Vector2 ℚ) (s : ℚ) : Vector2 ℚ := opVS (· / ·) a s

/-- Vector times scalar, the `Mul<T>` instance at the float type
(used by `limit_length` as `(self / l) * len`). -/
def mulVS (a : Vector2 ℚ) (s : ℚ) : Vector2 ℚ := opVS (· * ·) a s

/-- Vector plus vector, the `Add<Vector2<T>>` instance at the float type. -/
def addVV (a b : Vector2 ℚ) : Vector2 ℚ := opVV (· + ·) a b

/-- Vector minus vector, the `Sub<Vector2<T>>` instance at the float type. -/
def subVV (a b : Vector2 ℚ) : Vector2 ℚ := opVV (· - ·) a b

/-! ### Floating-point geometry (src/lib.rs, `impl<T: FloatAlone> Vector2<T>`).
The square root of the `FloatAlone` capability is an explicit parameter. -/

/-- Squared length `self.x * self.x + self.y * self.y`
(src/lib.rs `length_squared`). -/
def length_squared (v : Vector2 ℚ) : ℚ := v.x * v.x + v.y * v.y

/-- Length `(self.x * self.x + self.y * self.y).sqrt()`
(src/lib.rs `length`), with the capability square root `sq`. -/
def length (sq : ℚ → ℚ) (v : Vector2 ℚ) : ℚ := sq (v.x * v.x + v.y * v.y)

/-- Normalization (src/lib.rs `normalized`): if `length_squared != 0`,
divide by its square root, else return the vector unchanged. -/
def normalized (sq : ℚ → ℚ) (v : Vector2 ℚ) : Vector2 ℚ :=
  let l := length_squared v
  if l ≠ 0 then divVS v (sq l) else v

/-- Length limiting (src/lib.rs `limit_length`): if `length > 0` and
`len < length`, return `(self / l) * len`, else the vector unchanged. -/
def limit_length (sq : ℚ → ℚ) (v : Vector2 ℚ) (len : ℚ) : Vector2 ℚ :=
  let l := length sq v
  if l > 0 ∧ len < l then mulVS (divVS v l) len else v

/-- Executable stand-in for the float square root, exact on rationals
whose numerator and denominator are perfect squares (used to instantiate
the `sq` capability parameter in witnesses). -/
def rsqrt (q : ℚ) : ℚ := (Nat.sqrt q.num.toNat : ℚ) / (Nat.sqrt q.den : ℚ)

/-! ### Approximate equality capability (src/lib.rs, trait `Kinda`),
over the exact rational model of `f32`. -/

/-- Scalar `kinda_eq` (src/lib.rs `impl Kinda for f32`): true if the two
values are equal, else true iff `(self - other).abs() < tolerance`. -/
def kinda_eq (a b tolerance : ℚ) : Bool :=
  if a = b then true else decide (|a - b| < tolerance)

/-- Scalar `approx_eq`: `kinda_eq` at the fixed tolerance `0.00001`. -/
def approx_eq (a b : ℚ) : Bool := kinda_eq a b 0.00001

/-- Vector `kinda_eq` (src/lib.rs `impl Kinda for Vec2`): both components
must independently satisfy the scalar predicate with the same tolerance. -/
def vkinda_eq (a b : Vector2 ℚ) (tolerance : ℚ) : Bool :=
  kinda_eq a.x b.x tolerance && kinda_eq a.y b.y tolerance

/-- Vector `approx_eq`: vector `kinda_eq` at tolerance `0.00001`. -/
def vapprox_eq (a b : Vector2 ℚ) : Bool := vkinda_eq a b 0.00001

/-! ### NaN-aware model of `f32` for the `Kinda` capability.
`WF` is `f32` as an `Option ℚ`, `none` playing NaN. The primitives are
the IEEE rules the Rust code relies on: comparisons involving NaN are
false, arithmetic on NaN yields NaN. -/

/-- Float scalar with NaN: `none` is NaN, `some q` a finite value. -/
abbrev WF : Type := Option ℚ

/-- IEEE `==` on `f32`: false whenever either side is NaN. -/
def weq : WF → WF → Bool
  | some a, some b => decide (a = b)
  | _, _ => false

/-- IEEE `<` on `f32`: false whenever either side is NaN. -/
def wlt : WF → WF → Bool
  | some a, some b => decide (a < b)
  | _, _ => false

/-- IEEE subtraction on `f32`: NaN propagates. -/
def wsub : WF → WF → WF
  | some a, some b => some (a - b)
  | _, _ => none

/-- IEEE `abs` on `f32`: NaN propagates. -/
def wabs : WF → WF
  | some a => some |a|
  | none => none

/-- Scalar `kinda_eq` (src/lib.rs `impl Kinda for f32`) over the
NaN-aware float model, transcribing
`if self == other { true } else { (self - other).abs() < tolerance }`. -/
def wkinda_eq (a b tolerance : WF) : Bool :=
  if weq a b then true else wlt (wabs (wsub a b)) tolerance

/-- Scalar `approx_eq` over the NaN-aware float model. -/
def wapprox_eq (a b : WF) : Bool := wkinda_eq a b (some 0.00001)

/-- Vector `kinda_eq` (src/lib.rs `impl Kinda for Vec2`) over the
NaN-aware float model. -/
def wvkinda_eq (a b : Vector2 WF) (tolerance : WF) : Bool :=
  wkinda_eq a.x b.x tolerance && wkinda_eq a.y b.y tolerance

/-- Vector `approx_eq` over the NaN-aware float model. -/
def wvapprox_eq (a b : Vector2 WF) : Bool := wvkinda_eq a b (some 0.00001)

/-! ### Fallible slice conversion (src/from.rs, `TryFrom<&[T]>`).
The slice is a `List`; the error type is `()` as in the source. -/

/-- Slice conversion (src/from.rs `try_from`):
`value.len().eq(&2).then(|| Self::new(value[0], value[1])).ok_or(())`. -/
def tryFrom (l : List α) : Except Unit (Vector2 α) :=
  if h : l.length = 2 then
    Except.ok (Vector2.new (l.get ⟨0, by omega⟩) (l.get ⟨1, by omega⟩))
  else Except.error ()

/-- Slice conversion with the panic behaviour of Rust indexing made
explicit: `value[i]` is `List.get?`, and an out-of-bounds access is the
`none` outcome (a panic). The length test and the sequencing follow the
source expression. -/
def tryFromRun (l : List α) : Option (Except Unit (Vector2 α)) :=
  if l.length = 2 then
    match l.get? 0, l.get? 1 with
    | some a, some b => some (Except.ok (Vector2.new a b))
    | _, _ => none
  else some (Except.error ())

/-! ## Helper lemmas -/

/-- Unfolding of `length`: it is the capability square root applied to
`length_squared`. -/
lemma length_eq_sq_length_squared (sq : ℚ → ℚ) (v : Vector2 ℚ) :
    length sq v = sq (length_squared v) := rfl

/-- Extensionality for the two-component record. -/
lemma Vector2.ext_iff_xy (a b : Vector2 α) : a = b ↔ a.x = b.x ∧ a.y = b.y := by
  cases a; cases b; simp [Vector2.mk.injEq]

/-- The executable square root is exact on squares of naturals. -/
lemma rsqrt_natCast_sq (n : ℕ) : rsqrt ((n : ℚ) * (n : ℚ)) = (n : ℚ) := by
  have h : ((n : ℚ) * (n : ℚ)) = ((n * n : ℕ) : ℚ) := by push_cast; ring
  rw [h]
  unfold rsqrt
  rw [Rat.num_natCast, Rat.den_natCast, Int.toNat_natCast, Nat.sqrt_eq,
    Nat.sqrt_one]
  norm_num

/-- Concrete evaluation: `rsqrt 25 = 5`. -/
lemma rsqrt_25 : rsqrt 25 = 5 := by
  have h := rsqrt_natCast_sq 5
  push_cast at h
  norm_num at h
  exact h

/-- Concrete evaluation: `rsqrt 1 = 1`. -/
lemma rsqrt_1 : rsqrt 1 = 1 := by
  have h := rsqrt_natCast_sq 1
  push_cast at h
  norm_num at h
  exact h

/-- Concrete evaluation: `rsqrt 0 = 0`. -/
lemma rsqrt_0 : rsqrt 0 = 0 := by
  norm_num [rsqrt, Nat.sqrt]

/-- Scalar `kinda_eq` of NaN with NaN is false at every tolerance:
the IEEE `==` test fails, and `|NaN - NaN| < tolerance` is a comparison
against NaN, which is also false. -/
lemma wkinda_eq_nan (t : WF) : wkinda_eq none none t = false := by
  unfold wkinda_eq weq wsub wabs wlt
  cases t <;> rfl

/-! ## Claim theorems -/

/-- C5: for every one of the five operations {+, -, *, /, %} — the
`op!`/`assign!` macros are instantiated exactly at those five, with the
scalar operation `f` as the macro parameter — the binary form and the
in-place assigning form produce identical per-component results, each
component being the underlying scalar operation applied to `x` and `y`
independently, with scalar right-hand operands broadcast to both
components. -/
theorem op_assign_componentwise {α : Type} (f : α → α → α)
    (a b : Vector2 α) (s : α) :
    assignVV f a b = opVV f a b ∧
    assignVS f a s = opVS f a s ∧
    opVV f a b = Vector2.new (f a.x b.x) (f a.y b.y) ∧
    opVS f a s = Vector2.new (f a.x s) (f a.y s) :=
  ⟨rfl, rfl, rfl, rfl⟩

/-- C6: for every one of the five arithmetic operations (binary and
in-place; `f` is the macro parameter instantiated at {+, -, *, /, %}),
passing the right-hand operand (vector or scalar) by reference produces
exactly the same result and the same mutation as passing it by value. -/
theorem ref_value_agree {α : Type} (f : α → α → α)
    (a b : Vector2 α) (s : α) :
    opVVRef f a b = opVV f a b ∧
    opVSRef f a s = opVS f a s ∧
    assignVVRef f a b = assignVV f a b ∧
    assignVSRef f a s = assignVS f a s :=
  ⟨rfl, rfl, rfl, rfl⟩

/-- C7: `kinda_eq a b tolerance` is true exactly when `a = b` or
`|a - b| < tolerance`; `approx_eq a b` equals `kinda_eq a b 0.00001`;
and the vector predicate holds exactly when the x components and the
y components independently satisfy the scalar predicate with the same
tolerance. -/
theorem kinda_eq_spec (a b tolerance : ℚ) (va vb : Vector2 ℚ) :
    (kinda_eq a b tolerance = true ↔ a = b ∨ |a - b| < tolerance) ∧
    approx_eq a b = kinda_eq a b 0.00001 ∧
    (vkinda_eq va vb tolerance = true ↔
      kinda_eq va.x vb.x tolerance = true ∧
      kinda_eq va.y vb.y tolerance = true) ∧
    vapprox_eq va vb = vkinda_eq va vb 0.00001 := by
  refine ⟨?_, rfl, ?_, rfl⟩
  · unfold kinda_eq
    by_cases h : a = b <;> simp [h]
  · unfold vkinda_eq
    simp [Bool.and_eq_true]

/-- C8: for all vectors `a` and `b` over the (exact-arithmetic model of
the) floating-point component type, `(a + b) - b = a`. -/
theorem add_sub_cancel_vec (a b : Vector2 ℚ) :
    subVV (addVV a b) b = a := by
  cases a
  simp [subVV, addVV, opVV, Vector2.new]

/-- C4: the fallible slice conversion succeeds exactly when the slice has
length 2, producing `Vector2.new seq[0] seq[1]`; for every other length
it fails with the single payload-free error value `()`. -/
theorem tryFrom_spec {α : Type} (l : List α) (a b : α) :
    ((∃ v, tryFrom l = Except.ok v) ↔ l.length = 2) ∧
    (l.length ≠ 2 → tryFrom l = Except.error ()) ∧
    tryFrom [a, b] = Except.ok (Vector2.new a b) := by
  refine ⟨⟨?_, ?_⟩, fun h => by simp [tryFrom, h], by simp [tryFrom]⟩
  · rintro ⟨v, hv⟩
    by_contra h
    simp [tryFrom, h] at hv
  · intro h
    exact ⟨Vector2.new (l.get ⟨0, by omega⟩) (l.get ⟨1, by omega⟩),
      by simp [tryFrom, h]⟩

/-- C4 witness: the length-3 slice `[1, 2, 3]` is rejected with `()`, and
the length-2 slice `[5, 7]` converts to `Vector2.new 5 7`. -/
theorem tryFrom_spec_witness :
    ([(1 : ℕ), 2, 3].length ≠ 2 ∧
      tryFrom [(1 : ℕ), 2, 3] = Except.error ()) ∧
    tryFrom [(5 : ℕ), 7] = Except.ok (Vector2.new 5 7) :=
  ⟨⟨by simp, (tryFrom_spec [(1 : ℕ), 2, 3] 5 7).2.1 (by simp)⟩,
    (tryFrom_spec [(1 : ℕ), 2, 3] 5 7).2.2⟩

/-- C9: the slice conversion is total: with Rust's panicking indexing
made explicit as the `none` outcome of `tryFromRun`, the conversion never
reaches the out-of-bounds branch — it always returns `some` of the pure
result, for every slice length. -/
theorem tryFrom_no_panic {α : Type} (l : List α) :
    tryFromRun l = some (tryFrom l) := by
  by_cases h : l.length = 2
  · rw [List.length_eq_two] at h
    obtain ⟨a, b, rfl⟩ := h
    simp [tryFromRun, tryFrom]
  · simp [tryFromRun, tryFrom, h]

/-- C10: approximate equality is not reflexive in the presence of NaN:
`kinda_eq NaN NaN tolerance` is false for every tolerance, and a vector
with a NaN component satisfies neither `kinda_eq` nor `approx_eq` with
itself. -/
theorem kinda_eq_nan_irrefl (tolerance : WF) (v : Vector2 WF) :
    wkinda_eq none none tolerance = false ∧
    (v.x = none ∨ v.y = none →
      wvkinda_eq v v tolerance = false ∧ wvapprox_eq v v = false) := by
  refine ⟨wkinda_eq_nan tolerance, fun h => ?_⟩
  obtain hx | hy := h
  · unfold wvkinda_eq wvapprox_eq wvkinda_eq
    rw [hx]
    simp [wkinda_eq_nan]
  · unfold wvkinda_eq wvapprox_eq wvkinda_eq
    rw [hy]
    simp [wkinda_eq_nan]

/-- C10 witness: the vector `(NaN, 1)` is approximately equal to itself
under neither predicate. -/
theorem kinda_eq_nan_irrefl_witness :
    ((Vector2.new (none : WF) (some 1)).x = none ∨
      (Vector2.new (none : WF) (some 1)).y = none) ∧
    wvkinda_eq (Vector2.new (none : WF) (some 1))
      (Vector2.new (none : WF) (some 1)) (some 1) = false ∧
    wvapprox_eq (Vector2.new (none : WF) (some 1))
      (Vector2.new (none : WF) (some 1)) = false :=
  ⟨Or.inl rfl,
    (kinda_eq_nan_irrefl (some 1) (Vector2.new (none : WF) (some 1))).2
      (Or.inl rfl)⟩

/-- Unfolding of `normalized` with its let-binding resolved. -/
lemma normalized_eq (sq : ℚ → ℚ) (v : Vector2 ℚ) :
    normalized sq v =
      if length_squared v ≠ 0 then divVS v (sq (length_squared v)) else v :=
  rfl

/-- Unfolding of `limit_length` with its let-binding resolved. -/
lemma limit_length_eq (sq : ℚ → ℚ) (v : Vector2 ℚ) (len : ℚ) :
    limit_length sq v len =
      if 0 < length sq v ∧ len < length sq v then
        mulVS (divVS v (length sq v)) len
      else v :=
  rfl

/-- C1: `normalized` returns the vector divided by the square root of its
squared length when the squared length is nonzero, and returns the vector
unchanged when the squared length is zero; in particular the zero vector
normalizes to itself (the degenerate case passes through the guard, so no
division by a zero magnitude — the source of NaN — is performed). -/
theorem normalized_spec (sq : ℚ → ℚ) (v : Vector2 ℚ) :
    (length_squared v ≠ 0 →
      normalized sq v = divVS v (sq (length_squared v))) ∧
    (length_squared v = 0 → normalized sq v = v) ∧
    normalized sq Vector2.ZERO = Vector2.ZERO := by
  refine ⟨fun h => ?_, fun h => ?_, ?_⟩
  · rw [normalized_eq, if_pos h]
  · rw [normalized_eq, if_neg (by simp [h])]
  · rw [normalized_eq, if_neg]
    norm_num [length_squared, Vector2.ZERO, Vector2.new]

/-- C1 witness: the vector `(3, 4)` has nonzero squared length and is
divided by the square root of that squared length; the zero vector has
zero squared length and passes through unchanged. -/
theorem normalized_spec_witness :
    (length_squared (Vector2.new 3 4) ≠ 0 ∧
      normalized rsqrt (Vector2.new 3 4) =
        divVS (Vector2.new 3 4) (rsqrt (length_squared (Vector2.new 3 4)))) ∧
    (length_squared Vector2.ZERO = 0 ∧
      normalized rsqrt Vector2.ZERO = Vector2.ZERO) :=
  ⟨⟨by norm_num [length_squared, Vector2.new],
    (normalized_spec rsqrt (Vector2.new 3 4)).1
      (by norm_num [length_squared, Vector2.new])⟩,
   ⟨by norm_num [length_squared, Vector2.ZERO, Vector2.new],
    (normalized_spec rsqrt Vector2.ZERO).2.1
      (by norm_num [length_squared, Vector2.ZERO, Vector2.new])⟩⟩

/-- C2: `limit_length max` returns `(v / v.length) * max` when
`v.length > 0` and `max < v.length`, and returns `v` unchanged otherwise;
in particular, whenever the capability square root sends `0` to `0` (as
the float square root does), the zero vector is returned unchanged for
every `max`. -/
theorem limit_length_spec (sq : ℚ → ℚ) (v : Vector2 ℚ) (max : ℚ) :
    (0 < length sq v ∧ max < length sq v →
      limit_length sq v max = mulVS (divVS v (length sq v)) max) ∧
    (¬(0 < length sq v ∧ max < length sq v) → limit_length sq v max = v) ∧
    (sq 0 = 0 → limit_length sq Vector2.ZERO max = Vector2.ZERO) := by
  refine ⟨fun h => ?_, fun h => ?_, fun h0 => ?_⟩
  · rw [limit_length_eq, if_pos h]
  · rw [limit_length_eq, if_neg h]
  · have hl : length sq Vector2.ZERO = 0 := by
      rw [length_eq_sq_length_squared,
        show length_squared Vector2.ZERO = 0 from by
          norm_num [length_squared, Vector2.ZERO, Vector2.new], h0]
    rw [limit_length_eq, if_neg]
    rw [hl]
    rintro ⟨h1, -⟩
    exact lt_irrefl 0 h1

/-- C2 witness: `(0, 1)` with `max = 1/2` is scaled, with `max = 7` it is
returned unchanged, and the zero vector is returned unchanged. -/
theorem limit_length_spec_witness :
    ((0 : ℚ) < length rsqrt (Vector2.new 0 1) ∧
        (1 : ℚ)/2 < length rsqrt (Vector2.new 0 1)) ∧
    limit_length rsqrt (Vector2.new 0 1) (1/2) =
      mulVS (divVS (Vector2.new 0 1) (length rsqrt (Vector2.new 0 1)))
        (1/2) ∧
    ¬((0 : ℚ) < length rsqrt (Vector2.new 0 1) ∧
        (7 : ℚ) < length rsqrt (Vector2.new 0 1)) ∧
    limit_length rsqrt (Vector2.new 0 1) 7 = Vector2.new 0 1 ∧
    rsqrt 0 = 0 ∧
    limit_length rsqrt Vector2.ZERO 5 = Vector2.ZERO := by
  have hlen : length rsqrt (Vector2.new 0 1) = 1 := by
    rw [length_eq_sq_length_squared]
    norm_num [length_squared, Vector2.new, rsqrt_1]
  have h1 : (0 : ℚ) < length rsqrt (Vector2.new 0 1) ∧
      (1 : ℚ)/2 < length rsqrt (Vector2.new 0 1) := by
    rw [hlen]; norm_num
  have h2 : ¬((0 : ℚ) < length rsqrt (Vector2.new 0 1) ∧
      (7 : ℚ) < length rsqrt (Vector2.new 0 1)) := by
    rw [hlen]; norm_num
  exact ⟨h1, (limit_length_spec rsqrt (Vector2.new 0 1) (1/2)).1 h1,
    h2, (limit_length_spec rsqrt (Vector2.new 0 1) 7).2.1 h2,
    rsqrt_0, (limit_length_spec rsqrt Vector2.ZERO 5).2.2 rsqrt_0⟩

/-- C3 counterexample: at `v = (1, 0)` and `max = -1` (a negative limit)
the guard fires, the result is `(-1, 0)`: its length `1` is not at most
`max`, it is not `v` unchanged, and it is not a nonnegative multiple of
`v` — the magnitude is not clamped to `max` and the direction is
reversed, refuting the claim as stated for arbitrary `max`. -/
theorem limit_length_direction_counterexample :
    ¬((length rsqrt (limit_length rsqrt (Vector2.new 1 0) (-1)) ≤ -1 ∨
        limit_length rsqrt (Vector2.new 1 0) (-1) = Vector2.new 1 0) ∧
      ∃ c, 0 ≤ c ∧
        limit_length rsqrt (Vector2.new 1 0) (-1) =
          mulVS (Vector2.new 1 0) c) := by
  have hlen : length rsqrt (Vector2.new 1 0) = 1 := by
    rw [length_eq_sq_length_squared]
    norm_num [length_squared, Vector2.new, rsqrt_1]
  have hr : limit_length rsqrt (Vector2.new 1 0) (-1) = Vector2.new (-1) 0 := by
    rw [limit_length_eq, if_pos (by rw [hlen]; norm_num), hlen]
    norm_num [mulVS, divVS, opVS, Vector2.new]
  rw [hr]
  rintro ⟨h1 | h2, c, hc0, hc⟩
  · rw [show length rsqrt (Vector2.new (-1) 0) = 1 from by
      rw [length_eq_sq_length_squared]
      norm_num [length_squared, Vector2.new, rsqrt_1]] at h1
    norm_num at h1
  · rw [Vector2.ext_iff_xy] at h2
    norm_num [Vector2.new] at h2

/-- C3 (amended): for every vector `v` and NONNEGATIVE scalar `max`, with
the capability square root exact at `length_squared v` and at `max²`, the
result of `limit_length` clamps the magnitude and preserves the
direction: its length is at most `max` or it is `v` unchanged, and it is
a nonnegative scalar multiple of `v`. (The restriction to `0 ≤ max` is
forced: a negative `max` below the length scales by a negative factor,
reversing the direction.) -/
theorem limit_length_clamps_nonneg (sq : ℚ → ℚ) (v : Vector2 ℚ) (max : ℚ)
    (hmax : 0 ≤ max)
    (hsq : sq (length_squared v) * sq (length_squared v) = length_squared v)
    (hsqmax : sq (max * max) = max) :
    (length sq (limit_length sq v max) ≤ max ∨ limit_length sq v max = v) ∧
    ∃ c, 0 ≤ c ∧ limit_length sq v max = mulVS v c := by
  by_cases h : 0 < length sq v ∧ max < length sq v
  · have hr : limit_length sq v max = mulVS (divVS v (length sq v)) max := by
      rw [limit_length_eq, if_pos h]
    have hL : length sq v * length sq v = v.x * v.x + v.y * v.y := hsq
    have hL0 : length sq v ≠ 0 := ne_of_gt h.1
    have hls : length_squared (mulVS (divVS v (length sq v)) max) =
        max * max := by
      simp only [length_squared, mulVS, divVS, opVS, Vector2.new]
      field_simp
      linear_combination (-(max * max)) * hL
    constructor
    · left
      rw [hr, length_eq_sq_length_squared, hls, hsqmax]
    · refine ⟨max / length sq v, div_nonneg hmax (le_of_lt h.1), ?_⟩
      rw [hr]
      rw [Vector2.ext_iff_xy]
      simp only [mulVS, divVS, opVS, Vector2.new]
      constructor <;> field_simp
  · have hr : limit_length sq v max = v := by rw [limit_length_eq, if_neg h]
    refine ⟨Or.inr hr, 1, zero_le_one, ?_⟩
    rw [hr]
    simp [mulVS, opVS, Vector2.new]

/-- C3 witness: `(3, 4)` limited to `1` — the square root is exact at the
squared length `25` and at `1² = 1`, and the result is clamped and
direction-preserving. -/
theorem limit_length_clamps_nonneg_witness :
    ((0 : ℚ) ≤ 1 ∧
      rsqrt (length_squared (Vector2.new 3 4)) *
          rsqrt (length_squared (Vector2.new 3 4)) =
        length_squared (Vector2.new 3 4) ∧
      rsqrt ((1 : ℚ) * 1) = 1) ∧
    ((length rsqrt (limit_length rsqrt (Vector2.new 3 4) 1) ≤ 1 ∨
        limit_length rsqrt (Vector2.new 3 4) 1 = Vector2.new 3 4) ∧
      ∃ c, 0 ≤ c ∧
        limit_length rsqrt (Vector2.new 3 4) 1 =
          mulVS (Vector2.new 3 4) c) := by
  have h2 : rsqrt (length_squared (Vector2.new 3 4)) *
      rsqrt (length_squared (Vector2.new 3 4)) =
        length_squared (Vector2.new 3 4) := by
    norm_num [length_squared, Vector2.new, rsqrt_25]
  have h3 : rsqrt ((1 : ℚ) * 1) = 1 := by norm_num [rsqrt_1]
  exact ⟨⟨zero_le_one, h2, h3⟩,
    limit_length_clamps_nonneg rsqrt (Vector2.new 3 4) 1 zero_le_one h2 h3⟩

end Vecto
